import Mathlib

/-!
Verification of the `inout` crate (`src/inout/src/inout.rs`): a dual-pointer
view type `InOut` holding one input pointer and one output pointer that are
either equal or non-overlapping, together with bulk XOR operations for flat
(`GenericArray<u8, N>`) and nested (`GenericArray<GenericArray<u8, N>, M>`)
byte-array shapes.

Shallow embedding conventions:
* pointers are byte addresses (`Nat`);
* memory is a total map from byte addresses to byte values (`Mem`);
* a Rust reference is embedded as the address it grants access to;
* a function that can panic is embedded as an `Option`-returning function,
  `none` standing for the panic.
-/

/-- Byte-addressed memory: each address holds one byte value. -/
abbrev Mem : Type := Nat → Nat

/-- Read `n` consecutive bytes starting at address `p`. -/
def readBytes (mem : Mem) (p n : Nat) : List Nat :=
  (List.range n).map fun i => mem (p + i)

/-- `InOut<'inp, 'out, T>` (inout.rs lines 7-11): an immutable input pointer
and a mutable output pointer. The `PhantomData` lifetime marker has no
runtime content and is dropped from the embedding. -/
structure InOut where
  in_ptr : Nat
  out_ptr : Nat
deriving DecidableEq, Repr

/-- `InOutBuf` (the variable-length counterpart referenced by `into_buf`,
inout.rs lines 120-127): two pointers plus a runtime length. -/
structure InOutBuf where
  in_ptr : Nat
  out_ptr : Nat
  len : Nat
deriving DecidableEq, Repr

namespace InOut

/-- `InOut::reborrow` (inout.rs lines 16-22): rebuilds the view from the same
two pointers. -/
def reborrow (v : InOut) : InOut :=
  { in_ptr := v.in_ptr, out_ptr := v.out_ptr }

/-- `InOut::get_in` (inout.rs lines 26-28): returns `&*self.in_ptr`, i.e. a
read reference to the address `in_ptr`. -/
def get_in (v : InOut) : Nat :=
  v.in_ptr

/-- `InOut::get_out` (inout.rs lines 32-34): returns `&mut *self.out_ptr`,
i.e. a write reference to the address `out_ptr`. -/
def get_out (v : InOut) : Nat :=
  v.out_ptr

/-- `InOut::into_raw` (inout.rs lines 38-40): the pair of raw pointers. -/
def into_raw (v : InOut) : Nat × Nat :=
  (v.in_ptr, v.out_ptr)

/-- `InOut::from_raw` (inout.rs lines 61-67): builds the view from two raw
pointers; the invariants are the caller's unchecked obligation. -/
def from_raw (in_ptr out_ptr : Nat) : InOut :=
  { in_ptr := in_ptr, out_ptr := out_ptr }

/-- `InOut::clone_in` (inout.rs lines 73-75): clones the value behind
`in_ptr`; for a `T` of byte size `size` this is a copy of those bytes. -/
def clone_in (mem : Mem) (size : Nat) (v : InOut) : List Nat :=
  readBytes mem v.in_ptr size

/-- `impl From<&'a mut T> for InOut` (inout.rs lines 78-88): both pointers
are set to the address of the single mutable location. -/
def from_mut (p : Nat) : InOut :=
  { in_ptr := p, out_ptr := p }

/-- `impl From<(&'inp T, &'out mut T)> for InOut` (inout.rs lines 90-99):
the two pointers are set independently from the reference pair. -/
def from_pair (inp outp : Nat) : InOut :=
  { in_ptr := inp, out_ptr := outp }

/-- `InOut::get` (inout.rs lines 107-116) on a view over an `N`-element
array whose elements are `eltSize` bytes wide: `assert!(pos < N)` (embedded
as `none` on failure), then offsets both pointers by `pos` elements, i.e.
`pos * eltSize` bytes. -/
def get (eltSize N : Nat) (v : InOut) (pos : Nat) : Option InOut :=
  if pos < N then
    some { in_ptr := v.in_ptr + pos * eltSize, out_ptr := v.out_ptr + pos * eltSize }
  else
    none

/-- `InOut::into_buf` (inout.rs lines 120-127) on a view over an `N`-element
array: same two base addresses, length set to `N::USIZE`. -/
def into_buf (N : Nat) (v : InOut) : InOutBuf :=
  { in_ptr := v.in_ptr, out_ptr := v.out_ptr, len := N }

end InOut

/-! ### Flat XOR (inout.rs lines 130-166)

`xor_in2out` for `InOut<GenericArray<u8, N>>` first executes
`assert_eq!(N::USIZE & 7, 0)` and then runs a RISC-V hardware loop
(`lp_setup` with trip count `N::USIZE / 8`) whose body, per iteration `k`:
loads the 32-bit words at `in_ptr + 8k` and `in_ptr + 8k + 4`
(post-incrementing `a0`), loads the corresponding two words of `data`
(post-incrementing `a1`), XORs them pairwise, and stores the two result
words at `out_ptr + 8k` and `out_ptr + 8k + 4` (post-incrementing `a2`).
Words are little-endian packings of four bytes. -/

/-- Little-endian packing of four bytes into one 32-bit word value. -/
def packW (b0 b1 b2 b3 : Nat) : Nat :=
  b0 % 256 + 256 * (b1 % 256) + 65536 * (b2 % 256) + 16777216 * (b3 % 256)

/-- `lw`: load the little-endian 32-bit word at address `p`. -/
def loadWord (mem : Mem) (p : Nat) : Nat :=
  packW (mem p) (mem (p + 1)) (mem (p + 2)) (mem (p + 3))

/-- `sw`: store the 32-bit word `w` at address `p`, little-endian. -/
def storeWord (mem : Mem) (p w : Nat) : Mem :=
  fun a =>
    if a = p then w % 256
    else if a = p + 1 then w / 256 % 256
    else if a = p + 2 then w / 65536 % 256
    else if a = p + 3 then w / 16777216 % 256
    else mem a

/-- The 32-bit word formed by bytes `k, k+1, k+2, k+3` of the `data` array
(which, being a live shared reference, is disjoint from the written output
region, so it is modelled by value). -/
def dataWord (data : List Nat) (k : Nat) : Nat :=
  packW (data.getD k 0) (data.getD (k + 1) 0) (data.getD (k + 2) 0) (data.getD (k + 3) 0)

/-- One iteration of the hardware loop at trip index `k`: two word loads
from the input, two data words, two XORs, two word stores to the output. -/
def xorIter (data : List Nat) (inp outp k : Nat) (mem : Mem) : Mem :=
  let t0 := loadWord mem (inp + 8 * k)
  let t1 := loadWord mem (inp + 8 * k + 4)
  let t2 := dataWord data (8 * k)
  let t3 := dataWord data (8 * k + 4)
  storeWord (storeWord mem (outp + 8 * k) (t0 ^^^ t2)) (outp + 8 * k + 4) (t1 ^^^ t3)

/-- The hardware loop: iterations `k = 0, 1, ..., count - 1` in order. -/
def xorLoop (data : List Nat) (inp outp count : Nat) (mem : Mem) : Mem :=
  (List.range count).foldl (fun m k => xorIter data inp outp k m) mem

/-- Flat `InOut::xor_in2out` (inout.rs lines 138-165):
`assert_eq!(N::USIZE & 7, 0)` — `none` embeds the panic — then the hardware
loop with trip count `N / 8` over input pointer `inp`, data array `data`
and output pointer `outp`. -/
def xor_in2out_flat (N : Nat) (data : List Nat) (inp outp : Nat) (mem : Mem) : Option Mem :=
  if N &&& 7 = 0 then some (xorLoop data inp outp (N / 8) mem) else none

/-! ### Nested XOR (inout.rs lines 168-192)

`xor_in2out` for `InOut<GenericArray<GenericArray<u8, N>, M>>`:
`ptr::read` the whole `M×N` input value, build a default temporary, set
`temp[i][j] = input[i][j] ^ data[i][j]` for all `i < M`, `j < N`, then
`ptr::write` the temporary to the output pointer. The memory layout of the
nested array places element `(i, j)` at byte offset `i * N + j`. -/

/-- `ptr::read(self.in_ptr)`: the `M×N` matrix value stored at `p`, row `i`
byte `j` living at byte offset `i * N + j`. -/
def ptrReadNested (mem : Mem) (p M N : Nat) : List (List Nat) :=
  (List.range M).map fun i => (List.range N).map fun j => mem (p + (i * N + j))

/-- The filled temporary: `temp[i][j] = input[i][j] ^ data[i][j]` for all
`i < M`, `j < N` (the double `for` loop of inout.rs lines 184-188). -/
def nestedTemp (M N : Nat) (input data : List (List Nat)) : List (List Nat) :=
  (List.range M).map fun i =>
    (List.range N).map fun j => (input.getD i []).getD j 0 ^^^ (data.getD i []).getD j 0

/-- `ptr::write(self.out_ptr, v)` for an `M×N` nested byte matrix `v`:
overwrites the `M * N` bytes starting at `p` with `v`'s layout (element
`(i, j)` at offset `i * N + j`), leaving all other addresses unchanged. -/
def ptrWriteNested (mem : Mem) (p M N : Nat) (v : List (List Nat)) : Mem :=
  fun a =>
    if p ≤ a ∧ a < p + M * N then (v.getD ((a - p) / N) []).getD ((a - p) % N) 0
    else mem a

/-- Nested `InOut::xor_in2out` (inout.rs lines 180-191): read the whole
input into a temporary copy, XOR into a fresh temporary, write the
temporary to the output address in one pass. -/
def xor_in2out_nested (M N : Nat) (data : List (List Nat)) (inp outp : Nat)
    (mem : Mem) : Mem :=
  let input := ptrReadNested mem inp M N
  let temp := nestedTemp M N input data
  ptrWriteNested mem outp M N temp

/-! ### Aliasing invariant -/

/-- Invariant I1 for a view over a `s`-byte type: the two pointers are equal,
or their `s`-byte ranges do not overlap. -/
def EqOrDisjoint (s : Nat) (v : InOut) : Prop :=
  v.in_ptr = v.out_ptr ∨ v.in_ptr + s ≤ v.out_ptr ∨ v.out_ptr + s ≤ v.in_ptr

/-- Invariant I1 for an `InOutBuf` over elements of `eltSize` bytes. -/
def EqOrDisjointBuf (eltSize : Nat) (b : InOutBuf) : Prop :=
  b.in_ptr = b.out_ptr ∨ b.in_ptr + b.len * eltSize ≤ b.out_ptr
    ∨ b.out_ptr + b.len * eltSize ≤ b.in_ptr

/-! ### Theorems -/

/-- Claim C6: constructing a view in place (`From<&mut T>`) sets both the
input pointer and the output pointer to the address of the location, so
`get_in` and `get_out` observe the same address. -/
theorem from_mut_in_place (p : Nat) :
    (InOut.from_mut p).get_in = p ∧ (InOut.from_mut p).get_out = p ∧
      (InOut.from_mut p).get_in = (InOut.from_mut p).get_out :=
  ⟨rfl, rfl, rfl⟩

/-- Claim C7: `reborrow` produces a view whose input and output addresses,
as observed through `get_in` and `get_out`, are identical to the
original's. -/
theorem reborrow_preserves_addresses (v : InOut) :
    v.reborrow.get_in = v.get_in ∧ v.reborrow.get_out = v.get_out :=
  ⟨rfl, rfl⟩

/-- Claim C8: `into_raw` followed by `from_raw` on the same two returned
pointers reproduces a view equal to the original, so every accessor behaves
identically on it. -/
theorem into_raw_from_raw_roundtrip (v : InOut) :
    InOut.from_raw v.into_raw.1 v.into_raw.2 = v :=
  rfl

/-- Claim C9: `into_buf` on a view over an `N`-element array produces the
variable-length view with the same two base addresses and length `N`,
changing nothing else. -/
theorem into_buf_preserves_addresses (N : Nat) (v : InOut) :
    (InOut.into_buf N v).in_ptr = v.in_ptr ∧
      (InOut.into_buf N v).out_ptr = v.out_ptr ∧
      (InOut.into_buf N v).len = N :=
  ⟨rfl, rfl, rfl⟩

/-- Claim C4: `get` fails (panics, embedded as `none`) for every position
at or past the array length, and succeeds for every in-bounds position,
yielding the element view whose pointers are the base pointers offset by
`pos * eltSize` bytes. -/
theorem get_bounds (eltSize N : Nat) (v : InOut) (p q : Nat)
    (hp : N ≤ p) (hq : q < N) :
    InOut.get eltSize N v p = none ∧
      InOut.get eltSize N v q =
        some { in_ptr := v.in_ptr + q * eltSize, out_ptr := v.out_ptr + q * eltSize } := by
  constructor
  · simp only [InOut.get, if_neg (by omega : ¬ p < N)]
  · simp only [InOut.get, if_pos hq]

/-- Witness for C4 at `N = 4`, `eltSize = 2`: `get` at position 5 fails and
`get` at position 3 yields the view offset by 6 bytes. -/
theorem get_bounds_witness :
    InOut.get 2 4 { in_ptr := 10, out_ptr := 20 } 5 = none ∧
      InOut.get 2 4 { in_ptr := 10, out_ptr := 20 } 3 =
        some { in_ptr := 10 + 3 * 2, out_ptr := 20 + 3 * 2 } :=
  get_bounds 2 4 { in_ptr := 10, out_ptr := 20 } 5 3 (by decide) (by decide)

/-- Claim C5, counterexample: at `N = 8` the length is not a multiple of
8 words (a word is 4 bytes, so that would require `32 ∣ N`), yet the flat
`xor_in2out` passes its assertion and computes instead of failing: the
assertion actually checks `N & 7 == 0`, a multiple of 8 bytes. -/
theorem flat_assert_not_eight_words :
    ¬ (32 ∣ 8) ∧ (xor_in2out_flat 8 (List.replicate 8 0) 0 0 fun _ => 0).isSome = true := by
  refine ⟨by decide, ?_⟩
  have h : (8 : Nat) &&& 7 = 0 := by decide
  simp [xor_in2out_flat, h]

/-- Claim C5 as amended: the flat `xor_in2out` fast path asserts
`N & 7 == 0`, i.e. that the byte length `N` is a multiple of 8 bytes
(2 words), and the call fails that assertion (panics, embedded as `none`)
exactly when `N` is not a multiple of 8 bytes. -/
theorem flat_assert_mod_eight (N : Nat) (data : List Nat) (inp outp : Nat) (mem : Mem) :
    xor_in2out_flat N data inp outp mem = none ↔ N % 8 ≠ 0 := by
  have h7 : N &&& 7 = N % 8 := by
    simpa using Nat.and_pow_two_sub_one_eq_mod N 3
  unfold xor_in2out_flat
  rw [h7]
  by_cases h : N % 8 = 0 <;> simp [h]

/-- Claim C1 (code bug): at `N = 513` — the array length used by the
crate's own test `testlol`, which expects `out[0] = in[0] XOR data[0] = 1`
— the flat `xor_in2out` fails its `assert_eq!(N & 7, 0)` assertion
(`513 & 7 = 1`) and panics instead of producing any XOR output. -/
theorem flat_xor_panics_on_testlol_length :
    xor_in2out_flat 513 (List.replicate 513 1) 0 0 (fun _ => 0) = none := by
  have h : (513 : Nat) &&& 7 = 1 := by decide
  simp [xor_in2out_flat, h]

/-- Claim C3 (code bug): the flat `xor_in2out` is not total even when
`data` has exactly the type-enforced length `N`: at `N = 4` it fails its
internal `N & 7 == 0` assertion. -/
theorem flat_xor_not_total :
    ∃ N inp outp, ∃ data : List Nat, ∃ mem : Mem,
      data.length = N ∧ xor_in2out_flat N data inp outp mem = none := by
  refine ⟨4, 0, 0, List.replicate 4 0, (fun _ => 0), by decide, ?_⟩
  have h : (4 : Nat) &&& 7 = 4 := by decide
  simp [xor_in2out_flat, h]
theorem getD_map_range {α : Type} (f : Nat → α) (d : α) {M i : Nat} (h : i < M) :
    ((List.range M).map f).getD i d = f i := by
  simp [List.getD_eq_getElem?_getD, List.getElem?_map, List.getElem?_range, h]

/-- Claim C2: the nested `xor_in2out` reads the whole input into a private
temporary, XORs into that temporary, and writes it to the output in one
pass, so for any `M×N` shape, any addresses — including
`inp = outp`, the in-place case — and any `data` matrix, every output byte
`(i, j)` equals the call-time input byte XOR the data byte. -/
theorem xor_nested_correct (M N : Nat) (data : List (List Nat)) (inp outp : Nat)
    (mem : Mem) (i j : Nat) (hi : i < M) (hj : j < N) :
    xor_in2out_nested M N data inp outp mem (outp + (i * N + j)) =
      mem (inp + (i * N + j)) ^^^ (data.getD i []).getD j 0 := by
  have hN : 0 < N := Nat.lt_of_le_of_lt (Nat.zero_le j) hj
  have hlt : i * N + j < M * N := by
    have h1 : (i + 1) * N ≤ M * N := Nat.mul_le_mul_right N hi
    have h2 : (i + 1) * N = i * N + N := by ring
    omega
  have hcomm : i * N + j = j + i * N := by ring
  have hdiv : (i * N + j) / N = i := by
    rw [hcomm, Nat.add_mul_div_right _ _ hN, Nat.div_eq_of_lt hj]; omega
  have hmod : (i * N + j) % N = j := by
    rw [hcomm, Nat.add_mul_mod_self_right, Nat.mod_eq_of_lt hj]
  simp only [xor_in2out_nested, ptrWriteNested]
  rw [if_pos (by omega : outp ≤ outp + (i * N + j) ∧ outp + (i * N + j) < outp + M * N)]
  rw [(by omega : outp + (i * N + j) - outp = i * N + j), hdiv, hmod]
  simp only [nestedTemp, ptrReadNested]
  rw [getD_map_range _ _ hi, getD_map_range _ _ hj, getD_map_range _ _ hi,
    getD_map_range _ _ hj]

/-- Concrete memory for the nested-XOR witness: the in-place value
`[[1,1,1,1],[2,2,2,2]]` stored at address 0. -/
def memEx : Mem :=
  fun a => if a < 4 then 1 else if a < 8 then 2 else 0

/-- Witness for C2 at the spec's scenario: `M = 2`, `N = 4`, in-place view
at address 0 over `[[1,1,1,1],[2,2,2,2]]`, all-zero `data`; output byte
`(1, 2)` equals the original input byte `2`. -/
theorem xor_nested_correct_witness :
    xor_in2out_nested 2 4 [[0, 0, 0, 0], [0, 0, 0, 0]] 0 0 memEx (0 + (1 * 4 + 2)) = 2 := by
  have h := xor_nested_correct 2 4 [[0, 0, 0, 0], [0, 0, 0, 0]] 0 0 memEx 1 2
    (by decide) (by decide)
  rw [h]; decide
/-- Claim C10: every derived view preserves the equal-or-disjoint relation:
`reborrow` and `into_buf` copy both pointers unchanged; `get pos` offsets
both pointers by `pos * eltSize`, mapping equal pointers to equal pointers
and disjoint `N * eltSize`-byte ranges to disjoint `eltSize`-byte ranges;
`from_mut` establishes the equal branch at construction, and `from_pair`
establishes the disjoint branch from the host borrow rules' guarantee that
a shared and a mutable reference do not overlap. -/
theorem derived_views_eq_or_disjoint (eltSize N s pos i o p : Nat) (v w : InOut)
    (hpos : pos < N) (hv : EqOrDisjoint (N * eltSize) v)
    (hw : InOut.get eltSize N v pos = some w)
    (hpair : i + s ≤ o ∨ o + s ≤ i) :
    EqOrDisjoint (N * eltSize) v.reborrow
    ∧ EqOrDisjointBuf eltSize (InOut.into_buf N v)
    ∧ (v.in_ptr = v.out_ptr → w.in_ptr = w.out_ptr)
    ∧ (v.in_ptr + N * eltSize ≤ v.out_ptr ∨ v.out_ptr + N * eltSize ≤ v.in_ptr →
        w.in_ptr + eltSize ≤ w.out_ptr ∨ w.out_ptr + eltSize ≤ w.in_ptr)
    ∧ EqOrDisjoint eltSize w
    ∧ EqOrDisjoint s (InOut.from_mut p)
    ∧ EqOrDisjoint s (InOut.from_pair i o) := by
  have hw2 : w = { in_ptr := v.in_ptr + pos * eltSize, out_ptr := v.out_ptr + pos * eltSize } := by
    simp only [InOut.get, if_pos hpos, Option.some.injEq] at hw
    exact hw.symm
  subst hw2
  have hmul : pos * eltSize + eltSize ≤ N * eltSize := by
    have h1 : (pos + 1) * eltSize ≤ N * eltSize := Nat.mul_le_mul_right eltSize hpos
    have h2 : (pos + 1) * eltSize = pos * eltSize + eltSize := by ring
    omega
  refine ⟨hv, hv, ?_, ?_, ?_, Or.inl rfl, Or.inr hpair⟩
  · intro h
    simp [h]
  · intro h
    rcases h with h | h
    · exact Or.inl (by simp only []; omega)
    · exact Or.inr (by simp only []; omega)
  · rcases hv with h | h | h
    · exact Or.inl (by simp [h])
    · exact Or.inr (Or.inl (by simp only []; omega))
    · exact Or.inr (Or.inr (by simp only []; omega))

/-- Witness for C10 at `eltSize = 1`, `N = 4`, `s = 4`, `pos = 2`, an
in-place source view at address 0 (whose `get 2` yields the in-place
element view at address 2), and the reference pair `(0, 10)`. -/
theorem derived_views_eq_or_disjoint_witness :
    EqOrDisjoint (4 * 1) (InOut.reborrow { in_ptr := 0, out_ptr := 0 })
    ∧ EqOrDisjointBuf 1 (InOut.into_buf 4 { in_ptr := 0, out_ptr := 0 })
    ∧ ((0 : Nat) = 0 → (0 + 2 * 1 : Nat) = 0 + 2 * 1)
    ∧ ((0 + 4 * 1 ≤ 0 ∨ 0 + 4 * 1 ≤ 0) →
        (0 + 2 * 1 + 1 ≤ 0 + 2 * 1 ∨ 0 + 2 * 1 + 1 ≤ 0 + 2 * 1))
    ∧ EqOrDisjoint 1 { in_ptr := 0 + 2 * 1, out_ptr := 0 + 2 * 1 }
    ∧ EqOrDisjoint 4 (InOut.from_mut 7)
    ∧ EqOrDisjoint 4 (InOut.from_pair 0 10) :=
  derived_views_eq_or_disjoint 1 4 4 2 0 10 7 { in_ptr := 0, out_ptr := 0 }
    { in_ptr := 0 + 2 * 1, out_ptr := 0 + 2 * 1 } (by decide) (Or.inl rfl)
    (by decide) (Or.inl (by decide))
